import Mathlib

/-!
Shallow embedding of the operation-record & bounded-log engine of the
`agentic-jujutsu` package (files `src/operations.rs` and `src/wrapper.rs`),
together with theorems settling the specification claims about it.

Machine integers (`u64`, `usize`) are modelled as `Nat`: none of the verified
operations can overflow behaviour-relevantly (they only add durations and
count list elements). `DateTime<Utc>` timestamps, UUIDs, and the current
wall-clock are environmental inputs; constructors take them as explicit
parameters. `HashMap` values are modelled as association lists (metadata) or
as total functions defaulting to zero (the by-type statistics map, where an
absent key reads as count 0, exactly as `HashMap::get` returning `None` is
treated as zero occurrences).
-/

/-- `enum OperationType` from `operations.rs` (lines 39-100): the closed
enumeration of operation categories, with `Unknown` fallback. -/
inductive OperationType where
  | Commit
  | Snapshot
  | Describe
  | New
  | Edit
  | Abandon
  | Rebase
  | Squash
  | Resolve
  | Branch
  | BranchDelete
  | Bookmark
  | Tag
  | Checkout
  | Restore
  | Split
  | Duplicate
  | Undo
  | Fetch
  | GitFetch
  | Push
  | GitPush
  | Clone
  | Init
  | GitImport
  | GitExport
  | Move
  | Diffedit
  | Merge
  | Unknown
  deriving DecidableEq, Repr

/-- Lower-case a string character by character, as Rust `str::to_lowercase`
does for the ASCII subcommand names involved here. -/
def strToLower (s : String) : String :=
  String.mk (s.data.map Char.toLower)

/-- `OperationType::from_string` (operations.rs lines 147-180): lowercase the
input and match it against the known names, defaulting to `Unknown`. -/
def OperationType.from_string (s : String) : OperationType :=
  let t := strToLower s
  if t = "commit" then .Commit
  else if t = "snapshot" then .Snapshot
  else if t = "describe" then .Describe
  else if t = "new" then .New
  else if t = "edit" then .Edit
  else if t = "abandon" then .Abandon
  else if t = "rebase" then .Rebase
  else if t = "squash" then .Squash
  else if t = "resolve" then .Resolve
  else if t = "branch" then .Branch
  else if t = "branch-delete" then .BranchDelete
  else if t = "bookmark" then .Bookmark
  else if t = "tag" then .Tag
  else if t = "checkout" then .Checkout
  else if t = "restore" then .Restore
  else if t = "split" then .Split
  else if t = "duplicate" then .Duplicate
  else if t = "undo" then .Undo
  else if t = "fetch" then .Fetch
  else if t = "git-fetch" then .GitFetch
  else if t = "push" then .Push
  else if t = "git-push" then .GitPush
  else if t = "clone" then .Clone
  else if t = "init" then .Init
  else if t = "git-import" then .GitImport
  else if t = "git-export" then .GitExport
  else if t = "move" then .Move
  else if t = "diffedit" then .Diffedit
  else if t = "merge" then .Merge
  else .Unknown

/-- `struct JJOperation` (operations.rs lines 200-243). The `timestamp` is a
`Nat` stand-in for `DateTime<Utc>`; `metadata` is an association list standing
for the `HashMap<String, String>`. -/
structure JJOperation where
  id : String
  operation_id : String
  operation_type : OperationType
  command : String
  user : String
  hostname : String
  timestamp : Nat
  tags : List String
  metadata : List (String × String)
  parent_id : Option String
  duration_ms : Nat
  success : Bool
  error : Option String
  deriving DecidableEq, Repr

/-- `JJOperation::new` (operations.rs lines 249-270). `freshId` is the
`Uuid::new_v4()` value and `now` the `Utc::now()` value, both environmental
inputs taken as parameters. -/
def JJOperation.new (freshId : String) (now : Nat)
    (operation_id command user hostname : String) : JJOperation :=
  { id := freshId
    operation_id := operation_id
    operation_type := .Unknown
    command := command
    user := user
    hostname := hostname
    timestamp := now
    tags := []
    metadata := []
    parent_id := none
    duration_ms := 0
    success := true
    error := none }

/-- `JJOperation::add_tag` (operations.rs lines 333-337): push the tag only
when it is not already present. -/
def JJOperation.add_tag (op : JJOperation) (tag : String) : JJOperation :=
  if op.tags.contains tag then op else { op with tags := op.tags ++ [tag] }

/-- `struct JJOperationBuilder` (operations.rs lines 375-387). -/
structure JJOperationBuilder where
  operation_id : Option String
  operation_type : Option OperationType
  command : Option String
  user : Option String
  hostname : Option String
  tags : List String
  metadata : List (String × String)
  parent_id : Option String
  duration_ms : Nat
  success : Bool
  error : Option String
  deriving DecidableEq, Repr

/-- Rust `#[derive(Default)]` on the builder: `None` options, empty
collections, zero duration, and crucially `success = false` because
`bool::default()` is `false`. -/
def JJOperationBuilder.default : JJOperationBuilder :=
  { operation_id := none
    operation_type := none
    command := none
    user := none
    hostname := none
    tags := []
    metadata := []
    parent_id := none
    duration_ms := 0
    success := false
    error := none }

/-- `JJOperationBuilder::tag` (operations.rs lines 421-424): pushes the tag
unconditionally, with no duplicate check. -/
def JJOperationBuilder.tag (b : JJOperationBuilder) (t : String) : JJOperationBuilder :=
  { b with tags := b.tags ++ [t] }

/-- `JJOperationBuilder::operation_type` (operations.rs lines 397-400). -/
def JJOperationBuilder.operation_type_set (b : JJOperationBuilder)
    (t : OperationType) : JJOperationBuilder :=
  { b with operation_type := some t }

/-- `JJOperationBuilder::duration_ms` (operations.rs lines 445-448). -/
def JJOperationBuilder.duration_ms_set (b : JJOperationBuilder)
    (d : Nat) : JJOperationBuilder :=
  { b with duration_ms := d }

/-- `JJOperationBuilder::failed` (operations.rs lines 451-455). -/
def JJOperationBuilder.failed (b : JJOperationBuilder) (e : String) : JJOperationBuilder :=
  { b with success := false, error := some e }

/-- `JJOperationBuilder::build` (operations.rs lines 458-474). `freshId` and
`freshOpId` are the two `Uuid::new_v4()` draws and `now` the `Utc::now()`
value. Unset options fall back to `unwrap_or`-style defaults. -/
def JJOperationBuilder.build (b : JJOperationBuilder)
    (freshId freshOpId : String) (now : Nat) : JJOperation :=
  { id := freshId
    operation_id := b.operation_id.getD freshOpId
    operation_type := b.operation_type.getD .Unknown
    command := b.command.getD ""
    user := b.user.getD ""
    hostname := b.hostname.getD ""
    timestamp := now
    tags := b.tags
    metadata := b.metadata
    parent_id := b.parent_id
    duration_ms := b.duration_ms
    success := b.success
    error := b.error }

/-- Modelled from the spec: the error enum `JJError` is declared in
`src/error.rs`, which is not included among the sources; section 7 of the
spec says the only failure the log surfaces is the not-found condition of id
lookup, carrying the looked-up id, and `wrapper.rs` additionally constructs a
command-failure variant at its own boundary. -/
inductive JJError where
  | OperationNotFound : String → JJError
  | CommandFailed : String → JJError
  deriving DecidableEq, Repr

/-- `struct JJOperationLog` (operations.rs lines 499-505): the
`Arc<Mutex<Vec<JJOperation>>>` is modelled as the list it protects, with
mutating methods returning the successor state. -/
structure JJOperationLog where
  operations : List JJOperation
  max_entries : Nat
  deriving Repr

/-- `JJOperationLog::new` (operations.rs lines 509-514). -/
def JJOperationLog.new (max_entries : Nat) : JJOperationLog :=
  { operations := [], max_entries := max_entries }

/-- `JJOperationLog::add_operation` (operations.rs lines 517-526): push, then
drain the oldest `excess` records when the length exceeds `max_entries`. -/
def JJOperationLog.add_operation (log : JJOperationLog)
    (operation : JJOperation) : JJOperationLog :=
  if (log.operations ++ [operation]).length > log.max_entries then
    { log with
      operations :=
        ((log.operations ++ [operation]).drop
          ((log.operations ++ [operation]).length - log.max_entries)) }
  else
    { log with operations := log.operations ++ [operation] }

/-- `JJOperationLog::get_recent` (operations.rs lines 529-536): iterate in
reverse, take `limit`, clone out. -/
def JJOperationLog.get_recent (log : JJOperationLog) (limit : Nat) : List JJOperation :=
  log.operations.reverse.take limit

/-- `JJOperationLog::get_all` (operations.rs lines 539-541). -/
def JJOperationLog.get_all (log : JJOperationLog) : List JJOperation :=
  log.operations

/-- `JJOperationLog::find_by_id` (operations.rs lines 544-549): first record
whose `id` or `operation_id` equals the argument. -/
def JJOperationLog.find_by_id (log : JJOperationLog) (i : String) : Option JJOperation :=
  log.operations.find? (fun op => decide (op.id = i) || decide (op.operation_id = i))

/-- `JJOperationLog::get_operation` (operations.rs lines 552-555):
`find_by_id` then `ok_or_else(OperationNotFound)`. -/
def JJOperationLog.get_operation (log : JJOperationLog) (i : String) :
    Except JJError JJOperation :=
  match log.find_by_id i with
  | some op => .ok op
  | none => .error (JJError.OperationNotFound i)

/-- `JJOperationLog::get_by_type` (operations.rs lines 563-569). -/
def JJOperationLog.get_by_type (log : JJOperationLog) (op_type : OperationType) :
    List JJOperation :=
  log.operations.filter (fun op => decide (op.operation_type = op_type))

/-- `JJOperationLog::filter_by_type` (operations.rs lines 558-560): delegates
to `get_by_type`. -/
def JJOperationLog.filter_by_type (log : JJOperationLog) (op_type : OperationType) :
    List JJOperation :=
  log.get_by_type op_type

/-- Substring test on character lists: `needle` occurs in some suffix. -/
def charsContain (hay needle : List Char) : Bool :=
  match hay with
  | [] => needle.isEmpty
  | _ :: t => needle.isPrefixOf hay || charsContain t needle

/-- Rust `str::contains` for the lowercased search below. -/
def strContainsSub (hay needle : String) : Bool :=
  charsContain hay.data needle.data

/-- `JJOperationLog::search` (operations.rs lines 604-611): case-insensitive
substring match against `command`. -/
def JJOperationLog.search (log : JJOperationLog) (query : String) : List JJOperation :=
  let query_lower := strToLower query
  log.operations.filter (fun op => strContainsSub (strToLower op.command) query_lower)

/-- `JJOperationLog::count` (operations.rs lines 652-654). -/
def JJOperationLog.count (log : JJOperationLog) : Nat :=
  log.operations.length

/-- `JJOperationLog::clear` (operations.rs lines 667-669). -/
def JJOperationLog.clear (log : JJOperationLog) : JJOperationLog :=
  { log with operations := [] }

/-- `struct OperationStatistics` (operations.rs lines 737-758); the
`HashMap<OperationType, usize>` is a total function, absent keys reading 0. -/
structure OperationStatistics where
  total : Nat
  successful : Nat
  failed : Nat
  by_type : OperationType → Nat
  total_duration_ms : Nat
  avg_duration_ms : Nat
  max_duration_ms : Nat

/-- `Default for OperationStatistics` (operations.rs lines 760-772). -/
def OperationStatistics.default : OperationStatistics :=
  { total := 0
    successful := 0
    failed := 0
    by_type := fun _ => 0
    total_duration_ms := 0
    avg_duration_ms := 0
    max_duration_ms := 0 }

/-- Body of the accumulation loop of `JJOperationLog::statistics`
(operations.rs lines 676-691): bump the per-type count, the success or
failure count, and — only for nonzero durations — the duration sum and
maximum. -/
def statsStep (s : OperationStatistics) (op : JJOperation) : OperationStatistics :=
  { total := s.total
    successful := if op.success then s.successful + 1 else s.successful
    failed := if op.success then s.failed else s.failed + 1
    by_type := fun t => if t = op.operation_type then s.by_type t + 1 else s.by_type t
    total_duration_ms :=
      if op.duration_ms > 0 then s.total_duration_ms + op.duration_ms
      else s.total_duration_ms
    avg_duration_ms := s.avg_duration_ms
    max_duration_ms :=
      if op.duration_ms > 0 then
        if op.duration_ms > s.max_duration_ms then op.duration_ms else s.max_duration_ms
      else s.max_duration_ms }

/-- `JJOperationLog::statistics` (operations.rs lines 672-699): fold the loop
body over the snapshot, set `total` to the snapshot length, and fill
`avg_duration_ms = total_duration_ms / total` when both are positive. -/
def JJOperationLog.statistics (log : JJOperationLog) : OperationStatistics :=
  let s := log.operations.foldl statsStep OperationStatistics.default
  let s1 := { s with total := log.operations.length }
  if 0 < s1.total ∧ 0 < s1.total_duration_ms then
    { s1 with avg_duration_ms := s1.total_duration_ms / s1.total }
  else s1

/-- `JJWrapper::detect_operation_type` (wrapper.rs lines 116-137): match on
the first argument token, with the two guarded `git` arms inspecting the
second token, and `Unknown` as the fallthrough. -/
def detect_operation_type (args : List String) : OperationType :=
  match args with
  | [] => .Unknown
  | a :: rest =>
    if a = "describe" then .Describe
    else if a = "new" then .New
    else if a = "edit" then .Edit
    else if a = "abandon" then .Abandon
    else if a = "rebase" then .Rebase
    else if a = "squash" then .Squash
    else if a = "resolve" then .Resolve
    else if a = "branch" then .Branch
    else if a = "bookmark" then .Bookmark
    else if a = "git" then
      match rest with
      | b :: _ =>
        if b = "fetch" then .GitFetch
        else if b = "push" then .GitPush
        else .Unknown
      | [] => .Unknown
    else if a = "undo" then .Undo
    else if a = "restore" then .Restore
    else .Unknown

/-- State-passing view of `get_recent`: the method only reads under the lock,
so the post-state equals the pre-state (operations.rs lines 529-536). -/
def JJOperationLog.get_recent_call (log : JJOperationLog) (limit : Nat) :
    List JJOperation × JJOperationLog :=
  (log.get_recent limit, log)

/-- State-passing view of `get_all` (operations.rs lines 539-541). -/
def JJOperationLog.get_all_call (log : JJOperationLog) :
    List JJOperation × JJOperationLog :=
  (log.get_all, log)

/-- State-passing view of `find_by_id` (operations.rs lines 544-549). -/
def JJOperationLog.find_by_id_call (log : JJOperationLog) (i : String) :
    Option JJOperation × JJOperationLog :=
  (log.find_by_id i, log)

/-- State-passing view of `get_operation` (operations.rs lines 552-555). -/
def JJOperationLog.get_operation_call (log : JJOperationLog) (i : String) :
    Except JJError JJOperation × JJOperationLog :=
  (log.get_operation i, log)

/-- State-passing view of `filter_by_type` (operations.rs lines 558-560). -/
def JJOperationLog.filter_by_type_call (log : JJOperationLog) (t : OperationType) :
    List JJOperation × JJOperationLog :=
  (log.filter_by_type t, log)

/-- State-passing view of `search` (operations.rs lines 604-611). -/
def JJOperationLog.search_call (log : JJOperationLog) (q : String) :
    List JJOperation × JJOperationLog :=
  (log.search q, log)

/-- State-passing view of `statistics` (operations.rs lines 672-699). -/
def JJOperationLog.statistics_call (log : JJOperationLog) :
    OperationStatistics × JJOperationLog :=
  (log.statistics, log)

/-- State-passing view of `count` (operations.rs lines 652-654). -/
def JJOperationLog.count_call (log : JJOperationLog) :
    Nat × JJOperationLog :=
  (log.count, log)

/-- Sum of `duration_ms` restricted to records with nonzero duration: the
quantity the statistics loop accumulates into `total_duration_ms`. -/
def sumNonzeroDur : List JJOperation → Nat
  | [] => 0
  | op :: rest => (if op.duration_ms > 0 then op.duration_ms else 0) + sumNonzeroDur rest

/-- The specification's average formula, stated from the spec's words for
comparison with the code: sum of nonzero durations divided by the number of
records with nonzero duration, zero when there are none. -/
def specAvgNonzero (ops : List JJOperation) : Nat :=
  let nz := ops.filter (fun op => decide (op.duration_ms > 0))
  if nz.length = 0 then 0 else (nz.map (fun op => op.duration_ms)).sum / nz.length

/-- Concrete record used by witnesses: all environmental fields fixed. -/
def mkOp (ident oid : String) (t : OperationType) (dur : Nat) : JJOperation :=
  { id := ident
    operation_id := oid
    operation_type := t
    command := ""
    user := ""
    hostname := ""
    timestamp := 0
    tags := []
    metadata := []
    parent_id := none
    duration_ms := dur
    success := true
    error := none }

/-- Any sequence of `add_tag` calls on a freshly constructed record keeps the
tag list duplicate-free. -/
theorem addTag_foldl_nodup (ts : List String) (op : JJOperation)
    (h : op.tags.Nodup) : (ts.foldl JJOperation.add_tag op).tags.Nodup := by
  induction ts generalizing op with
  | nil => exact h
  | cons t rest ih =>
    refine ih _ ?_
    by_cases hm : t ∈ op.tags
    · simp [JJOperation.add_tag, hm, h]
    · simp [JJOperation.add_tag, hm, List.nodup_append, h]

/-- C3: the claim says `JJOperation::builder().build()` fills safe defaults
with `success = true`; evaluating the embedded builder at that very input
shows every other default is as claimed but `success` is `false`, because
`#[derive(Default)]` on `JJOperationBuilder` defaults the `success : bool`
field to `false`. This contradicts the code's own tests (`test_statistics`
expects three builder-built records to count as successful, and
`test_failed_operations` expects exactly one failure among one `failed()` and
one plain builder record), so the code, not the claim, is wrong here. -/
theorem C3_builder_default_eval :
    (JJOperationBuilder.default.build "uuid-a" "uuid-b" 0).command = ""
    ∧ (JJOperationBuilder.default.build "uuid-a" "uuid-b" 0).user = ""
    ∧ (JJOperationBuilder.default.build "uuid-a" "uuid-b" 0).hostname = ""
    ∧ (JJOperationBuilder.default.build "uuid-a" "uuid-b" 0).operation_type
        = OperationType.Unknown
    ∧ (JJOperationBuilder.default.build "uuid-a" "uuid-b" 0).duration_ms = 0
    ∧ (JJOperationBuilder.default.build "uuid-a" "uuid-b" 0).success = false := by
  refine ⟨rfl, rfl, rfl, rfl, rfl, rfl⟩

/-- C4 counterexample: calling the builder's `tag` method twice with the same
string yields a record whose tag list `["dup", "dup"]` has a duplicate, so
not every record constructed through the public interface has duplicate-free
tags. -/
theorem C4_counterexample :
    ¬ (((JJOperationBuilder.default.tag "dup").tag "dup").build "u1" "u2" 0).tags.Nodup := by
  decide

/-- C4 amended: a record made by `JJOperation::new` and extended by any
sequence of `add_tag` calls never contains duplicate tags (the builder's
`tag` method, by contrast, appends unconditionally). -/
theorem C4_new_addTag_nodup (freshId : String) (now : Nat)
    (oid cmd usr host : String) (ts : List String) :
    ((ts.foldl JJOperation.add_tag
        (JJOperation.new freshId now oid cmd usr host)).tags).Nodup := by
  apply addTag_foldl_nodup
  simp [JJOperation.new]

/-- C10: the wrapper's classifier has no arm for the token `commit` — every
argument list starting with `"commit"` is classified `Unknown` — while the
`Commit` category exists and the string parser maps `"commit"` to it. -/
theorem C10_commit_unrecognized :
    (∀ rest : List String, detect_operation_type ("commit" :: rest) = .Unknown)
    ∧ OperationType.from_string "commit" = .Commit := by
  constructor
  · intro rest
    simp [detect_operation_type]
  · rfl

/-- The first tokens the wrapper's classifier recognizes (wrapper.rs lines
121-134). -/
def recognizedFirstTokens : List String :=
  ["describe", "new", "edit", "abandon", "rebase", "squash", "resolve",
   "branch", "bookmark", "git", "undo", "restore"]

/-- C8: the classifier is total (it is a Lean function into the closed
30-constructor enumeration), the empty argument list maps to `Unknown`, any
first token outside the recognized set maps to `Unknown`, and a `git` prefix
whose second token is neither `fetch` nor `push` (or which has no second
token) maps to `Unknown` — never an error. -/
theorem C8_classifier_total_unknown :
    detect_operation_type [] = .Unknown
    ∧ (∀ (a : String) (rest : List String), a ∉ recognizedFirstTokens →
        detect_operation_type (a :: rest) = .Unknown)
    ∧ (∀ (b : String) (rest : List String), b ≠ "fetch" → b ≠ "push" →
        detect_operation_type ("git" :: b :: rest) = .Unknown)
    ∧ detect_operation_type ["git"] = .Unknown := by
  refine ⟨rfl, ?_, ?_, rfl⟩
  · intro a rest h
    simp only [recognizedFirstTokens, List.mem_cons, List.not_mem_nil,
      not_or, or_false] at h
    obtain ⟨h1, h2, h3, h4, h5, h6, h7, h8, h9, h10, h11, h12⟩ := h
    simp [detect_operation_type, h1, h2, h3, h4, h5, h6, h7, h8, h9, h10, h11, h12]
  · intro b rest hf hp
    simp [detect_operation_type, hf, hp]

/-- C8 witness: concrete unrecognized inputs evaluate to `Unknown`. -/
theorem C8_witness :
    detect_operation_type ["status"] = .Unknown
    ∧ detect_operation_type ["git", "remote"] = .Unknown :=
  ⟨C8_classifier_total_unknown.2.1 "status" [] (by decide),
   C8_classifier_total_unknown.2.2.1 "remote" [] (by decide) (by decide)⟩

/-- C5: `get_recent limit` is the reverse (most-recent-first) of the stored
insertion order truncated to `limit` records, hence has length at most
`limit`; when `limit` is at least the stored count it returns all records,
and `limit = 0` returns the empty list. -/
theorem C5_get_recent (log : JJOperationLog) (limit : Nat) :
    log.get_recent limit = (log.get_all).reverse.take limit
    ∧ (log.get_recent limit).length ≤ limit
    ∧ (log.count ≤ limit → log.get_recent limit = (log.get_all).reverse)
    ∧ log.get_recent 0 = [] := by
  refine ⟨rfl, ?_, ?_, ?_⟩
  · simp [JJOperationLog.get_recent]
  · intro h
    have : log.operations.reverse.length ≤ limit := by
      simpa [JJOperationLog.count] using h
    simp [JJOperationLog.get_recent, JJOperationLog.get_all, List.take_of_length_le this]
  · simp [JJOperationLog.get_recent]

/-- Log used by several witnesses: capacity 10 holding two fixed records. -/
def sampleLog : JJOperationLog :=
  ((JJOperationLog.new 10).add_operation (mkOp "a1" "x1" .Commit 100)).add_operation
    (mkOp "a2" "x2" .Rebase 0)

/-- C5 witness: on a concrete two-record log with `limit = 5 ≥ count`,
`get_recent` returns all records, most recent first. -/
theorem C5_witness :
    sampleLog.get_recent 5 = (sampleLog.get_all).reverse :=
  (C5_get_recent sampleLog 5).2.2.1 (by decide)

/-- C9: queries are side-effect free and idempotent — each query call leaves
the log state unchanged, and two `get_recent` calls with the same limit and
no intervening mutation return identical results. (The concurrency aspect of
the spec sentence — value copies under a lock — is outside the sequential
embedding; what is verified is that no query's body mutates the record
sequence.) -/
theorem C9_queries_pure (log : JJOperationLog) (limit : Nat)
    (i q : String) (c : OperationType) :
    (log.get_recent_call limit).1
      = (((log.get_recent_call limit).2).get_recent_call limit).1
    ∧ (log.get_recent_call limit).2 = log
    ∧ log.get_all_call.2 = log
    ∧ (log.find_by_id_call i).2 = log
    ∧ (log.get_operation_call i).2 = log
    ∧ (log.filter_by_type_call c).2 = log
    ∧ (log.search_call q).2 = log
    ∧ log.statistics_call.2 = log
    ∧ log.count_call.2 = log := by
  refine ⟨rfl, rfl, rfl, rfl, rfl, rfl, rfl, rfl, rfl⟩


/-- Unfolding of `add_operation` on the stored list: push, then drop the
excess oldest records when over capacity. -/
theorem add_operation_operations (log : JJOperationLog) (op : JJOperation) :
    (log.add_operation op).operations =
      if (log.operations ++ [op]).length > log.max_entries then
        (log.operations ++ [op]).drop
          ((log.operations ++ [op]).length - log.max_entries)
      else log.operations ++ [op] := by
  unfold JJOperationLog.add_operation
  split <;> rfl

/-- `add_operation` never changes the capacity. -/
theorem add_operation_max_entries (log : JJOperationLog) (op : JJOperation) :
    (log.add_operation op).max_entries = log.max_entries := by
  unfold JJOperationLog.add_operation
  split <;> rfl

/-- Folding `add_operation` over a sequence of records, starting from a state
within capacity, stores exactly the last-`m` suffix of the initial contents
followed by the appended sequence. -/
theorem foldl_add_operation_ops (seq : List JJOperation) (l : List JJOperation)
    (m : Nat) (h : l.length ≤ m) :
    (seq.foldl JJOperationLog.add_operation ⟨l, m⟩).operations
      = (l ++ seq).drop (l.length + seq.length - m) := by
  induction seq generalizing l with
  | nil =>
    simp [Nat.sub_eq_zero_of_le h]
  | cons x s ih =>
    rw [List.foldl_cons]
    have hsplit : l ++ x :: s = (l ++ [x]) ++ s := by
      rw [List.append_assoc, List.singleton_append]
    rcases Nat.lt_or_ge m (l.length + 1) with hgt | hge
    · have hlm : l.length = m := Nat.le_antisymm h (Nat.lt_succ_iff.mp hgt)
      have hstate : JJOperationLog.add_operation ⟨l, m⟩ x
          = ⟨(l ++ [x]).drop (l.length + 1 - m), m⟩ := by
        simp [JJOperationLog.add_operation, hgt]
      rw [hstate]
      have hlen : ((l ++ [x]).drop (l.length + 1 - m)).length = m := by
        simp only [List.length_drop, List.length_append, List.length_cons,
          List.length_nil]
        omega
      rw [ih _ (le_of_eq hlen), hlen]
      have key : ((l ++ [x]) ++ s).drop (l.length + 1 - m)
          = (l ++ [x]).drop (l.length + 1 - m) ++ s := by
        rw [List.drop_append_eq_append_drop]
        have hz : l.length + 1 - m - (l ++ [x]).length = 0 := by
          simp only [List.length_append, List.length_cons, List.length_nil]
          omega
        rw [hz, List.drop_zero]
      rw [← key, List.drop_drop, hsplit]
      have hidx : l.length + 1 - m + (m + s.length - m)
          = l.length + (x :: s).length - m := by
        simp only [List.length_cons]
        omega
      rw [hidx]
    · have hcond : ¬ (m < l.length + 1) := by omega
      have hstate : JJOperationLog.add_operation ⟨l, m⟩ x = ⟨l ++ [x], m⟩ := by
        simp [JJOperationLog.add_operation, hcond]
      rw [hstate]
      have hle : (l ++ [x]).length ≤ m := by
        simp only [List.length_append, List.length_cons, List.length_nil]
        omega
      rw [ih _ hle, hsplit]
      have hidx : (l ++ [x]).length + s.length - m
          = l.length + (x :: s).length - m := by
        simp only [List.length_append, List.length_cons, List.length_nil]
        omega
      rw [hidx]

/-- C1: (a) after every `add_operation` the stored count is at most the
capacity `max_entries`; (b) appending a sequence of `n > k` records to a
fresh capacity-`k` log leaves `count() = k`, and `get_all()` is exactly the
last `k` appended records in insertion order (the length-`k` suffix of the
sequence), so eviction removes precisely the oldest records. -/
theorem C1_bounded_fifo (k : Nat) (seq : List JJOperation) (h : k < seq.length) :
    (∀ (log : JJOperationLog) (op : JJOperation),
        (log.add_operation op).count ≤ log.max_entries)
    ∧ (seq.foldl JJOperationLog.add_operation (JJOperationLog.new k)).count = k
    ∧ (seq.foldl JJOperationLog.add_operation (JJOperationLog.new k)).get_all
        = seq.drop (seq.length - k) := by
  have hops :
      (seq.foldl JJOperationLog.add_operation (JJOperationLog.new k)).operations
        = seq.drop (seq.length - k) := by
    have hbase := foldl_add_operation_ops seq [] k (by simp)
    simpa [JJOperationLog.new] using hbase
  refine ⟨?_, ?_, ?_⟩
  · intro log op
    unfold JJOperationLog.count
    rw [add_operation_operations]
    split
    · simp
      omega
    · next hc =>
      simp only [List.length_append, List.length_cons, List.length_nil,
        gt_iff_lt, not_lt] at hc ⊢
      omega
  · unfold JJOperationLog.count
    rw [hops]
    simp
    omega
  · unfold JJOperationLog.get_all
    exact hops

/-- Concrete three-record sequence used by the C1 witness. -/
def seqC1 : List JJOperation :=
  [mkOp "c1" "z1" .Commit 1, mkOp "c2" "z2" .Commit 2, mkOp "c3" "z3" .Commit 3]

/-- C1 witness: three appends into a capacity-2 log keep exactly the last two
records, oldest first. -/
theorem C1_witness :
    (seqC1.foldl JJOperationLog.add_operation (JJOperationLog.new 2)).count = 2
    ∧ (seqC1.foldl JJOperationLog.add_operation (JJOperationLog.new 2)).get_all
        = seqC1.drop (seqC1.length - 2) :=
  (C1_bounded_fifo 2 seqC1 (by decide)).2

/-- The statistics loop body never touches `avg_duration_ms`. -/
theorem foldl_statsStep_avg (ops : List JJOperation) (s : OperationStatistics) :
    (ops.foldl statsStep s).avg_duration_ms = s.avg_duration_ms := by
  induction ops generalizing s with
  | nil => rfl
  | cons op rest ih =>
    rw [List.foldl_cons, ih]
    rfl

/-- The statistics loop accumulates into `total_duration_ms` exactly the sum
of the nonzero durations. -/
theorem foldl_statsStep_total_duration (ops : List JJOperation)
    (s : OperationStatistics) :
    (ops.foldl statsStep s).total_duration_ms
      = s.total_duration_ms + sumNonzeroDur ops := by
  induction ops generalizing s with
  | nil => simp [sumNonzeroDur]
  | cons op rest ih =>
    rw [List.foldl_cons, ih, sumNonzeroDur]
    by_cases hd : op.duration_ms > 0
    · simp [statsStep, hd]
      omega
    · simp [statsStep, hd]

/-- The statistics loop counts, for each category, exactly the records of
that category. -/
theorem foldl_statsStep_by_type (ops : List JJOperation)
    (s : OperationStatistics) (c : OperationType) :
    (ops.foldl statsStep s).by_type c
      = s.by_type c + (ops.filter (fun op => decide (op.operation_type = c))).length := by
  induction ops generalizing s with
  | nil => simp
  | cons op rest ih =>
    rw [List.foldl_cons, ih]
    by_cases hc : op.operation_type = c
    · simp [statsStep, hc, List.filter_cons]
      omega
    · have hc2 : ¬ (c = op.operation_type) := fun he => hc he.symm
      simp [statsStep, hc, hc2, List.filter_cons]

/-- `statistics` leaves the per-category map exactly as the loop built it. -/
theorem statistics_by_type (log : JJOperationLog) (c : OperationType) :
    (log.statistics).by_type c
      = (log.operations.foldl statsStep OperationStatistics.default).by_type c := by
  unfold JJOperationLog.statistics
  dsimp only
  split <;> rfl

/-- C7: `filter_by_type c` is the insertion-ordered subsequence of `get_all`
with category `c`, and its length is the count `statistics().by_type` stores
for `c` (an absent key reading zero). -/
theorem C7_filter_matches_stats (log : JJOperationLog) (c : OperationType) :
    log.filter_by_type c
      = (log.get_all).filter (fun op => decide (op.operation_type = c))
    ∧ (log.statistics).by_type c = (log.filter_by_type c).length := by
  constructor
  · rfl
  · rw [statistics_by_type, foldl_statsStep_by_type]
    simp [OperationStatistics.default, JJOperationLog.filter_by_type,
      JJOperationLog.get_by_type]

/-- Two-record log exhibiting the C2 divergence: durations 100 and 0. -/
def logC2 : JJOperationLog :=
  ((JJOperationLog.new 10).add_operation (mkOp "b1" "y1" .Commit 100)).add_operation
    (mkOp "b2" "y2" .Commit 0)

/-- C2 counterexample: with stored durations `[100, 0]` the code computes
`avg_duration_ms = 100 / 2 = 50` (it divides the nonzero-duration sum by the
total record count), while the claimed formula — sum over nonzero durations
divided by the number of nonzero-duration records — gives `100 / 1 = 100`.
The zero-duration record does affect the average. -/
theorem C2_counterexample :
    (logC2.statistics).avg_duration_ms = 50
    ∧ specAvgNonzero logC2.get_all = 100
    ∧ ¬ (logC2.statistics).avg_duration_ms = specAvgNonzero logC2.get_all := by
  refine ⟨by decide, by decide, by decide⟩

/-- C2 amended: `avg_duration_ms` is the sum of the nonzero durations divided
by the total number of stored records (integer division) whenever the log is
nonempty and that sum is positive, and zero otherwise; in particular it is
zero when no record has a nonzero duration, but zero-duration records do
lower the average by enlarging the denominator. -/
theorem C2_avg_over_total (log : JJOperationLog) :
    (log.statistics).avg_duration_ms =
      if 0 < log.operations.length ∧ 0 < sumNonzeroDur log.operations
      then sumNonzeroDur log.operations / log.operations.length
      else 0 := by
  unfold JJOperationLog.statistics
  dsimp only
  have htd : (log.operations.foldl statsStep OperationStatistics.default).total_duration_ms
      = sumNonzeroDur log.operations := by
    rw [foldl_statsStep_total_duration]
    simp [OperationStatistics.default]
  have hav : (log.operations.foldl statsStep OperationStatistics.default).avg_duration_ms
      = 0 := by
    rw [foldl_statsStep_avg]
    rfl
  simp only [htd, hav]
  split <;> rfl

/-- A successful `find?` returns the first element satisfying the predicate:
the list splits into a prefix of non-matching elements, the found element,
and a suffix. -/
theorem find?_eq_some_split {α : Type} {p : α → Bool} {l : List α} {x : α}
    (h : l.find? p = some x) :
    ∃ pre suf, l = pre ++ x :: suf ∧ p x = true ∧ ∀ y ∈ pre, p y = false := by
  induction l with
  | nil => simp [List.find?] at h
  | cons a t ih =>
    by_cases hpa : p a = true
    · rw [List.find?_cons_of_pos _ hpa] at h
      obtain rfl : a = x := by simpa using h
      exact ⟨[], t, rfl, hpa, by simp⟩
    · rw [List.find?_cons_of_neg _ hpa] at h
      obtain ⟨pre, suf, heq, hpx, hpre⟩ := ih h
      refine ⟨a :: pre, suf, by rw [heq]; rfl, hpx, ?_⟩
      intro y hy
      rcases List.mem_cons.mp hy with rfl | hmem
      · exact Bool.not_eq_true _ ▸ (Bool.eq_false_iff.mpr hpa)
      · exact hpre y hmem

/-- C6: `get_operation id` returns the not-found error exactly when no stored
record has `id` or `operation_id` equal to the argument; a successful lookup
returns the first matching record in insertion order (every earlier record
fails both comparisons); and the lookup leaves the log state untouched in
both cases. -/
theorem C6_get_operation_spec (log : JJOperationLog) (i : String) :
    (log.get_operation i = Except.error (JJError.OperationNotFound i)
        ↔ ∀ op ∈ log.operations, op.id ≠ i ∧ op.operation_id ≠ i)
    ∧ (∀ op, log.get_operation i = Except.ok op →
        ∃ pre suf, log.operations = pre ++ op :: suf
          ∧ (op.id = i ∨ op.operation_id = i)
          ∧ ∀ q ∈ pre, q.id ≠ i ∧ q.operation_id ≠ i)
    ∧ (log.get_operation_call i).2 = log := by
  refine ⟨?_, ?_, rfl⟩
  · unfold JJOperationLog.get_operation JJOperationLog.find_by_id
    cases hf : log.operations.find?
        (fun op => decide (op.id = i) || decide (op.operation_id = i)) with
    | none =>
      simp only [hf]
      constructor
      · intro _ op hmem
        have hall := List.find?_eq_none.mp hf op hmem
        simpa [not_or] using hall
      · intro _
        trivial
    | some op0 =>
      simp only [hf]
      constructor
      · intro hcontra
        exact absurd hcontra (by simp)
      · intro hall
        have hmem := List.mem_of_find?_eq_some hf
        have hp := List.find?_some hf
        have hno := hall op0 hmem
        simp only [Bool.or_eq_true, decide_eq_true_eq] at hp
        rcases hp with h1 | h2
        · exact absurd h1 hno.1
        · exact absurd h2 hno.2
  · intro op hok
    unfold JJOperationLog.get_operation JJOperationLog.find_by_id at hok
    cases hf : log.operations.find?
        (fun q => decide (q.id = i) || decide (q.operation_id = i)) with
    | none =>
      rw [hf] at hok
      simp at hok
    | some op0 =>
      rw [hf] at hok
      obtain rfl : op0 = op := by simpa using hok
      obtain ⟨pre, suf, heq, hp, hpre⟩ := find?_eq_some_split hf
      refine ⟨pre, suf, heq, ?_, ?_⟩
      · simpa using hp
      · intro q hq
        have := hpre q hq
        simpa [not_or] using this

/-- C6 witness: on a concrete two-record log, looking up an id that matches
no record returns the not-found error. -/
theorem C6_witness :
    sampleLog.get_operation "nope"
      = Except.error (JJError.OperationNotFound "nope") :=
  (C6_get_operation_spec sampleLog "nope").1.mpr (by decide)
